import Mathlib

/-!
Verification of the FASTQ reading module `SeqReaderFastqModule`
(src/btllib/include/btllib/seq_reader_fastq_module.hpp).

The module is a resumable, stage-based parser extracting one four-line
FASTQ record (header, sequence, separator, quality) at a time, via three
strategies: `read_buffer` (lines taken from an in-memory buffer window),
`read_transition` (remaining lines taken directly from the stream after
the buffer ran out mid-record) and `read_file` (all four lines straight
from the stream, no stage machinery).

Byte strings are embedded as `List Char`; the buffer window [start, end)
is the list of unread bytes, so `buffer.start < buffer.end` becomes
"the list is nonempty" and advancing the cursor becomes dropping a
prefix.  The external line primitives and stream probes are not part of
the module's source file and are modelled from the specification's
collaborator contracts.
-/

namespace Btllib

/-- Parsing stage of the current record: which of the four lines is next
to be read (`enum class Stage` in the source). -/
inductive Stage
  | HEADER
  | SEQ
  | SEP
  | QUAL
deriving DecidableEq, Repr

/-- Index of a stage in the fixed cyclic order
HEADER -> SEQ -> SEP -> QUAL. -/
def Stage.idx : Stage → Nat
  | .HEADER => 0
  | .SEQ => 1
  | .SEP => 2
  | .QUAL => 3

/-- Stage with a given index (inverse of `Stage.idx` on 0..3). -/
def Stage.ofIdx : Nat → Stage
  | 0 => .HEADER
  | 1 => .SEQ
  | 2 => .SEP
  | _ => .QUAL

/-- A FASTQ record under construction: the three informative fields
(the separator line is discarded and never stored in the record). -/
structure Record where
  header : List Char
  seq : List Char
  qual : List Char
deriving DecidableEq, Repr

/-- The module's persistent state: the stage cursor and the scratch
accumulator `tmp` that receives and discards the separator line. -/
structure SeqReaderFastqModule where
  stage : Stage
  tmp : List Char
deriving DecidableEq, Repr

/-- Modelled from the spec: the buffered line primitive's split of the
unread buffer window at the first line terminator.  Returns the bytes
before the first newline together with the bytes after it, or `none`
when no terminator exists before the window's end.  (The primitive
`SeqReader::readline_buffer_append` lives outside the module's source
file; the specification gives its contract.) -/
def splitLine : List Char → Option (List Char × List Char)
  | [] => none
  | c :: rest =>
    if c = '\n' then some ([], rest)
    else
      match splitLine rest with
      | none => none
      | some (l, r) => some (c :: l, r)

/-- Modelled from the spec: the buffered line primitive
`readline_buffer_append (destination, bufferWindow) -> bool`: copies the
bytes up to and excluding the next line terminator onto the destination,
advances the window's cursor past the terminator and returns true;
returns false and performs no mutation if no terminator exists before
the window's end.  Result: (found terminator, new destination, new
unread window). -/
def readline_buffer_append (dest : List Char) (buffer : List Char) :
    Bool × List Char × List Char :=
  match splitLine buffer with
  | none => (false, dest, buffer)
  | some (l, r) => (true, dest ++ l, r)

/-- Modelled from the spec: one stream line read, splitting the stream's
remaining bytes into the first line's content (terminator excluded) and
the bytes after the terminator; at end of input the line is whatever
remains. -/
def takeLine : List Char → List Char × List Char
  | [] => ([], [])
  | c :: rest =>
    if c = '\n' then ([], rest)
    else
      let p := takeLine rest
      (c :: p.1, p.2)

/-- Modelled from the spec: the underlying byte stream (`FILE* source`)
together with its error and end-of-file indicators, which the module
queries through the external probes `ferror`/`feof`/`fgetc`/`ungetc`. -/
structure Source where
  data : List Char
  err : Bool
  eofFlag : Bool
deriving DecidableEq, Repr

/-- Modelled from the spec: the stream error-state query. -/
def ferror (s : Source) : Bool := s.err

/-- Modelled from the spec: the stream end-of-stream query. -/
def feof (s : Source) : Bool := s.eofFlag

/-- Modelled from the spec: peek one unit from the stream; consuming the
unit on success, returning EOF (here `none`) and raising the
end-of-file indicator at exhaustion. -/
def fgetc (s : Source) : Option Char × Source :=
  match s.data with
  | [] => (none, { s with eofFlag := true })
  | c :: rest => (some c, { s with data := rest })

/-- Modelled from the spec: push one unit back onto the stream,
clearing the end-of-file indicator. -/
def ungetc (c : Char) (s : Source) : Source :=
  { s with data := c :: s.data, eofFlag := false }

/-- Modelled from the spec: the stream line primitive
`readline_file_append (destination, stream)`: appends one full line
(terminator excluded) to the destination, consuming it (terminator
included) from the stream. -/
def readline_file_append (dest : List Char) (source : Source) :
    List Char × Source :=
  let p := takeLine source.data
  (dest ++ p.1, { source with data := p.2 })

/-- Modelled from the spec: the stream line primitive `readline_file`:
reads one full line (terminator excluded) into the destination,
replacing its previous content, consuming the line from the stream. -/
def readline_file (source : Source) : List Char × Source :=
  readline_file_append [] source

/-- Modelled from the spec: the end-of-stream query `file_at_end` used
by the Direct Strategy: the stream is at its end when no bytes remain. -/
def file_at_end (s : Source) : Bool := s.data.isEmpty

/-- Result of one `read_buffer` call: the returned bool, the final
module state, the remaining unread buffer window and the record.  The
`lines` field is pure instrumentation: it counts the successful line
reads of the call and influences no other component. -/
structure BufferResult where
  ok : Bool
  lines : Nat
  state : SeqReaderFastqModule
  buffer : List Char
  record : Record
deriving DecidableEq, Repr

/-- The `case Stage::QUAL` block of `read_buffer` (lines 69-75 of the
source): read the quality line; on success wrap the stage to HEADER and
return true, on failure return false with the stage at QUAL. -/
def read_buffer_qual (tmp : List Char) (buffer : List Char)
    (record : Record) (n : Nat) : BufferResult :=
  match readline_buffer_append record.qual buffer with
  | (false, q, buf) =>
    ⟨false, n, ⟨Stage.QUAL, tmp⟩, buf, { record with qual := q }⟩
  | (true, q, buf) =>
    ⟨true, n + 1, ⟨Stage.HEADER, tmp⟩, buf, { record with qual := q }⟩

/-- The `case Stage::SEP` block of `read_buffer` (lines 61-67): read the
separator line into `tmp`; on success set the stage to QUAL, clear
`tmp`, and fall through to the QUAL block. -/
def read_buffer_sep (tmp : List Char) (buffer : List Char)
    (record : Record) (n : Nat) : BufferResult :=
  match readline_buffer_append tmp buffer with
  | (false, t, buf) =>
    ⟨false, n, ⟨Stage.SEP, t⟩, buf, record⟩
  | (true, _t, buf) =>
    read_buffer_qual [] buf record (n + 1)

/-- The `case Stage::SEQ` block of `read_buffer` (lines 54-58): read the
sequence line; on success set the stage to SEP and fall through. -/
def read_buffer_seq (tmp : List Char) (buffer : List Char)
    (record : Record) (n : Nat) : BufferResult :=
  match readline_buffer_append record.seq buffer with
  | (false, s, buf) =>
    ⟨false, n, ⟨Stage.SEQ, tmp⟩, buf, { record with seq := s }⟩
  | (true, s, buf) =>
    read_buffer_sep tmp buf { record with seq := s } (n + 1)

/-- The `case Stage::HEADER` block of `read_buffer` (lines 47-51): read
the header line; on success set the stage to SEQ and fall through. -/
def read_buffer_header (tmp : List Char) (buffer : List Char)
    (record : Record) (n : Nat) : BufferResult :=
  match readline_buffer_append record.header buffer with
  | (false, h, buf) =>
    ⟨false, n, ⟨Stage.HEADER, tmp⟩, buf, { record with header := h }⟩
  | (true, h, buf) =>
    read_buffer_seq tmp buf { record with header := h } (n + 1)

/-- Shallow embedding of `SeqReaderFastqModule::read_buffer` (source
lines 38-83): clear the record's fields, then, if the buffer window has
unread bytes, enter the stage switch at the current stage with
fallthrough towards QUAL; otherwise return false. -/
def read_buffer (st : SeqReaderFastqModule) (buffer : List Char)
    (record : Record) : BufferResult :=
  let record : Record := { record with header := [], seq := [], qual := [] }
  if buffer.isEmpty then
    ⟨false, 0, st, buffer, record⟩
  else
    match st.stage with
    | Stage.HEADER => read_buffer_header st.tmp buffer record 0
    | Stage.SEQ => read_buffer_seq st.tmp buffer record 0
    | Stage.SEP => read_buffer_sep st.tmp buffer record 0
    | Stage.QUAL => read_buffer_qual st.tmp buffer record 0

/-- Result of one `read_transition` call: the returned bool, the final
module state, the stream and the record.  The `lines` field is pure
instrumentation counting the stream line reads performed. -/
structure TransitionResult where
  ok : Bool
  lines : Nat
  state : SeqReaderFastqModule
  source : Source
  record : Record
deriving DecidableEq, Repr

/-- The `case Stage::QUAL` block of `read_transition` (source lines
110-114): read the quality line from the stream, wrap the stage to
HEADER and return true. -/
def read_transition_qual (tmp : List Char) (source : Source)
    (record : Record) (n : Nat) : TransitionResult :=
  let p := readline_file_append record.qual source
  ⟨true, n + 1, ⟨Stage.HEADER, tmp⟩, p.2, { record with qual := p.1 }⟩

/-- The `case Stage::SEP` block of `read_transition` (source lines
104-108): read the separator line into `tmp` from the stream, set the
stage to QUAL, clear `tmp`, fall through. -/
def read_transition_sep (tmp : List Char) (source : Source)
    (record : Record) (n : Nat) : TransitionResult :=
  let p := readline_file_append tmp source
  read_transition_qual [] p.2 record (n + 1)

/-- The `case Stage::SEQ` block of `read_transition` (source lines
99-102): read the sequence line from the stream, set the stage to SEP,
fall through. -/
def read_transition_seq (tmp : List Char) (source : Source)
    (record : Record) (n : Nat) : TransitionResult :=
  let p := readline_file_append record.seq source
  read_transition_sep tmp p.2 { record with seq := p.1 } (n + 1)

/-- The `case Stage::HEADER` block of `read_transition` (source lines
94-97): read the header line from the stream, set the stage to SEQ,
fall through. -/
def read_transition_header (tmp : List Char) (source : Source)
    (record : Record) (n : Nat) : TransitionResult :=
  let p := readline_file_append record.header source
  read_transition_seq tmp p.2 { record with header := p.1 } (n + 1)

/-- Shallow embedding of `SeqReaderFastqModule::read_transition`
(source lines 85-123): if the stream has neither error nor end-of-file
set, peek one unit with `fgetc`; if a unit is there, push it back with
`ungetc` and enter the stage switch at the current stage; in every
other case return false. -/
def read_transition (st : SeqReaderFastqModule) (source : Source)
    (record : Record) : TransitionResult :=
  if ferror source = false && feof source = false then
    match fgetc source with
    | (none, source) => ⟨false, 0, st, source, record⟩
    | (some p, source) =>
      let source := ungetc p source
      match st.stage with
      | Stage.HEADER => read_transition_header st.tmp source record 0
      | Stage.SEQ => read_transition_seq st.tmp source record 0
      | Stage.SEP => read_transition_sep st.tmp source record 0
      | Stage.QUAL => read_transition_qual st.tmp source record 0
  else ⟨false, 0, st, source, record⟩

/-- Result of one `read_file` call: the returned bool, the final module
state, the stream and the record. -/
structure FileResult where
  ok : Bool
  state : SeqReaderFastqModule
  source : Source
  record : Record
deriving DecidableEq, Repr

/-- Shallow embedding of `SeqReaderFastqModule::read_file` (source
lines 125-137): unless the stream is at its end, read the four lines
header, sequence, separator (into `tmp`), quality directly from the
stream and return true; the stage is neither read nor written. -/
def read_file (st : SeqReaderFastqModule) (source : Source)
    (record : Record) : FileResult :=
  if file_at_end source then
    ⟨false, st, source, record⟩
  else
    let p1 := readline_file source
    let p2 := readline_file p1.2
    let p3 := readline_file p2.2
    let p4 := readline_file p3.2
    ⟨true, { st with tmp := p3.1 }, p4.2,
      { record with header := p1.1, seq := p2.1, qual := p4.1 }⟩

/-- The `read_buffer` switch dispatching on the raw integer value of
the stage, exactly as the compiled `switch (stage)` does: the values
0..3 select the four stage blocks, any other value reaches the
`default` branch, which logs an error and aborts the whole process
(`std::exit`), embedded as `none`.  The bool/stage-index/tmp/buffer/
record outcome of a non-aborting call is returned. -/
def read_buffer_stageval (stageval : Nat) (tmp : List Char)
    (buffer : List Char) (record : Record) :
    Option (Bool × Nat × List Char × List Char × Record) :=
  let pack : BufferResult → Bool × Nat × List Char × List Char × Record :=
    fun o => (o.ok, o.state.stage.idx, o.state.tmp, o.buffer, o.record)
  let record : Record := { record with header := [], seq := [], qual := [] }
  if buffer.isEmpty then
    some (false, stageval, tmp, buffer, record)
  else
    match stageval with
    | 0 => some (pack (read_buffer_header tmp buffer record 0))
    | 1 => some (pack (read_buffer_seq tmp buffer record 0))
    | 2 => some (pack (read_buffer_sep tmp buffer record 0))
    | 3 => some (pack (read_buffer_qual tmp buffer record 0))
    | _ => none

/-- The `read_transition` switch dispatching on the raw integer value
of the stage: the values 0..3 select the four stage blocks, any other
value reaches the `default` branch, which aborts the process, embedded
as `none`.  The bool/stage-index/tmp/stream/record outcome of a
non-aborting call is returned. -/
def read_transition_stageval (stageval : Nat) (tmp : List Char)
    (source : Source) (record : Record) :
    Option (Bool × Nat × List Char × Source × Record) :=
  let pack : TransitionResult → Bool × Nat × List Char × Source × Record :=
    fun o => (o.ok, o.state.stage.idx, o.state.tmp, o.source, o.record)
  if ferror source = false && feof source = false then
    match fgetc source with
    | (none, source) => some (false, stageval, tmp, source, record)
    | (some p, source) =>
      let source := ungetc p source
      match stageval with
      | 0 => some (pack (read_transition_header tmp source record 0))
      | 1 => some (pack (read_transition_seq tmp source record 0))
      | 2 => some (pack (read_transition_sep tmp source record 0))
      | 3 => some (pack (read_transition_qual tmp source record 0))
      | _ => none
  else some (false, stageval, tmp, source, record)

/-- Drop the first `n` lines (terminators included) from a stream's
byte list. -/
def dropLines : Nat → List Char → List Char
  | 0, data => data
  | n + 1, data => dropLines n (takeLine data).2

lemma splitLine_nil : splitLine [] = none := rfl

lemma splitLine_append (l rest : List Char) (h : '\n' ∉ l) :
    splitLine (l ++ '\n' :: rest) = some (l, rest) := by
  induction l with
  | nil => simp [splitLine]
  | cons c cs ih =>
    have hc : ¬(c = '\n') := by
      intro hc
      exact h (hc ▸ List.mem_cons_self c cs)
    have hcs : '\n' ∉ cs := fun hm => h (List.mem_cons_of_mem c hm)
    simp [splitLine, hc, ih hcs]

lemma takeLine_append (l rest : List Char) (h : '\n' ∉ l) :
    takeLine (l ++ '\n' :: rest) = (l, rest) := by
  induction l with
  | nil => simp [takeLine]
  | cons c cs ih =>
    have hc : ¬(c = '\n') := by
      intro hc
      exact h (hc ▸ List.mem_cons_self c cs)
    have hcs : '\n' ∉ cs := fun hm => h (List.mem_cons_of_mem c hm)
    simp [takeLine, hc, ih hcs]

lemma Stage.ofIdx_idx (s : Stage) : Stage.ofIdx s.idx = s := by
  cases s <;> rfl

lemma read_buffer_qual_cases (tmp buf : List Char) (rec : Record) (n : Nat) :
    (splitLine buf = none ∧
      read_buffer_qual tmp buf rec n = ⟨false, n, ⟨Stage.QUAL, tmp⟩, buf, rec⟩) ∨
    (∃ l r, splitLine buf = some (l, r) ∧
      read_buffer_qual tmp buf rec n =
        ⟨true, n + 1, ⟨Stage.HEADER, tmp⟩, r, { rec with qual := rec.qual ++ l }⟩) := by
  rcases h : splitLine buf with _ | ⟨l, r⟩
  · exact Or.inl ⟨rfl, by simp [read_buffer_qual, readline_buffer_append, h]⟩
  · exact Or.inr ⟨l, r, rfl, by simp [read_buffer_qual, readline_buffer_append, h]⟩

lemma read_buffer_sep_cases (tmp buf : List Char) (rec : Record) (n : Nat) :
    (splitLine buf = none ∧
      read_buffer_sep tmp buf rec n = ⟨false, n, ⟨Stage.SEP, tmp⟩, buf, rec⟩) ∨
    (∃ l r, splitLine buf = some (l, r) ∧
      read_buffer_sep tmp buf rec n = read_buffer_qual [] r rec (n + 1)) := by
  rcases h : splitLine buf with _ | ⟨l, r⟩
  · exact Or.inl ⟨rfl, by simp [read_buffer_sep, readline_buffer_append, h]⟩
  · exact Or.inr ⟨l, r, rfl, by simp [read_buffer_sep, readline_buffer_append, h]⟩

lemma read_buffer_seq_cases (tmp buf : List Char) (rec : Record) (n : Nat) :
    (splitLine buf = none ∧
      read_buffer_seq tmp buf rec n = ⟨false, n, ⟨Stage.SEQ, tmp⟩, buf, rec⟩) ∨
    (∃ l r, splitLine buf = some (l, r) ∧
      read_buffer_seq tmp buf rec n =
        read_buffer_sep tmp r { rec with seq := rec.seq ++ l } (n + 1)) := by
  rcases h : splitLine buf with _ | ⟨l, r⟩
  · exact Or.inl ⟨rfl, by simp [read_buffer_seq, readline_buffer_append, h]⟩
  · exact Or.inr ⟨l, r, rfl, by simp [read_buffer_seq, readline_buffer_append, h]⟩

lemma read_buffer_header_cases (tmp buf : List Char) (rec : Record) (n : Nat) :
    (splitLine buf = none ∧
      read_buffer_header tmp buf rec n = ⟨false, n, ⟨Stage.HEADER, tmp⟩, buf, rec⟩) ∨
    (∃ l r, splitLine buf = some (l, r) ∧
      read_buffer_header tmp buf rec n =
        read_buffer_seq tmp r { rec with header := rec.header ++ l } (n + 1)) := by
  rcases h : splitLine buf with _ | ⟨l, r⟩
  · exact Or.inl ⟨rfl, by simp [read_buffer_header, readline_buffer_append, h]⟩
  · exact Or.inr ⟨l, r, rfl, by simp [read_buffer_header, readline_buffer_append, h]⟩

lemma read_buffer_empty (st : SeqReaderFastqModule) (r : Record) :
    read_buffer st [] r = ⟨false, 0, st, [], ⟨[], [], []⟩⟩ := by
  simp [read_buffer]

lemma read_buffer_entry (st : SeqReaderFastqModule) (buffer : List Char)
    (r : Record) (h : buffer ≠ []) :
    read_buffer st buffer r =
      match st.stage with
      | Stage.HEADER => read_buffer_header st.tmp buffer ⟨[], [], []⟩ 0
      | Stage.SEQ => read_buffer_seq st.tmp buffer ⟨[], [], []⟩ 0
      | Stage.SEP => read_buffer_sep st.tmp buffer ⟨[], [], []⟩ 0
      | Stage.QUAL => read_buffer_qual st.tmp buffer ⟨[], [], []⟩ 0 := by
  simp [read_buffer, h]

lemma read_buffer_noline (st : SeqReaderFastqModule) (buffer : List Char)
    (r : Record) (h : splitLine buffer = none) :
    read_buffer st buffer r = ⟨false, 0, st, buffer, ⟨[], [], []⟩⟩ := by
  rcases hb : buffer with _ | ⟨c, cs⟩
  · exact read_buffer_empty st r
  · rw [read_buffer_entry st (c :: cs) r (by simp)]
    subst hb
    rcases st with ⟨stage, tmp⟩
    cases stage <;>
      simp [read_buffer_header, read_buffer_seq, read_buffer_sep,
        read_buffer_qual, readline_buffer_append, h]

lemma read_buffer_fail_noline (st : SeqReaderFastqModule) (buffer : List Char)
    (r : Record) (h : (read_buffer st buffer r).ok = false) :
    splitLine ((read_buffer st buffer r).buffer) = none := by
  rcases hb : buffer with _ | ⟨c, cs⟩
  · rw [read_buffer_empty st r]
    exact splitLine_nil
  · subst hb
    rw [read_buffer_entry st (c :: cs) r (by simp)] at h ⊢
    rcases st with ⟨stage, tmp⟩
    have hqual : ∀ (t b : List Char) (rec : Record) (n : Nat),
        (read_buffer_qual t b rec n).ok = false →
        splitLine ((read_buffer_qual t b rec n).buffer) = none := by
      intro t b rec n hq
      rcases read_buffer_qual_cases t b rec n with ⟨hn, he⟩ | ⟨l, r', hs, he⟩
      · rw [he]; exact hn
      · rw [he] at hq; simp at hq
    have hsep : ∀ (t b : List Char) (rec : Record) (n : Nat),
        (read_buffer_sep t b rec n).ok = false →
        splitLine ((read_buffer_sep t b rec n).buffer) = none := by
      intro t b rec n hq
      rcases read_buffer_sep_cases t b rec n with ⟨hn, he⟩ | ⟨l, r', hs, he⟩
      · rw [he]; exact hn
      · rw [he] at hq ⊢; exact hqual _ _ _ _ hq
    have hseq : ∀ (t b : List Char) (rec : Record) (n : Nat),
        (read_buffer_seq t b rec n).ok = false →
        splitLine ((read_buffer_seq t b rec n).buffer) = none := by
      intro t b rec n hq
      rcases read_buffer_seq_cases t b rec n with ⟨hn, he⟩ | ⟨l, r', hs, he⟩
      · rw [he]; exact hn
      · rw [he] at hq ⊢; exact hsep _ _ _ _ hq
    have hheader : ∀ (t b : List Char) (rec : Record) (n : Nat),
        (read_buffer_header t b rec n).ok = false →
        splitLine ((read_buffer_header t b rec n).buffer) = none := by
      intro t b rec n hq
      rcases read_buffer_header_cases t b rec n with ⟨hn, he⟩ | ⟨l, r', hs, he⟩
      · rw [he]; exact hn
      · rw [he] at hq ⊢; exact hseq _ _ _ _ hq
    cases stage with
    | HEADER => exact hheader _ _ _ _ h
    | SEQ => exact hseq _ _ _ _ h
    | SEP => exact hsep _ _ _ _ h
    | QUAL => exact hqual _ _ _ _ h

lemma read_transition_qual_eq (tmp : List Char) (source : Source)
    (rec : Record) (n : Nat) :
    read_transition_qual tmp source rec n =
      ⟨true, n + 1, ⟨Stage.HEADER, tmp⟩,
        { source with data := (takeLine source.data).2 },
        { rec with qual := rec.qual ++ (takeLine source.data).1 }⟩ := by
  simp [read_transition_qual, readline_file_append]

lemma read_transition_sep_eq (tmp : List Char) (source : Source)
    (rec : Record) (n : Nat) :
    read_transition_sep tmp source rec n =
      ⟨true, n + 2, ⟨Stage.HEADER, []⟩,
        { source with data := (takeLine (takeLine source.data).2).2 },
        { rec with qual :=
            rec.qual ++ (takeLine (takeLine source.data).2).1 }⟩ := by
  simp [read_transition_sep, readline_file_append, read_transition_qual_eq]

lemma read_transition_seq_eq (tmp : List Char) (source : Source)
    (rec : Record) (n : Nat) :
    read_transition_seq tmp source rec n =
      ⟨true, n + 3, ⟨Stage.HEADER, []⟩,
        { source with data :=
            (takeLine (takeLine (takeLine source.data).2).2).2 },
        { rec with
            seq := rec.seq ++ (takeLine source.data).1,
            qual :=
              rec.qual ++ (takeLine (takeLine (takeLine source.data).2).2).1 }⟩ := by
  simp [read_transition_seq, readline_file_append, read_transition_sep_eq]

lemma read_transition_header_eq (tmp : List Char) (source : Source)
    (rec : Record) (n : Nat) :
    read_transition_header tmp source rec n =
      ⟨true, n + 4, ⟨Stage.HEADER, []⟩,
        { source with data :=
            (takeLine (takeLine (takeLine (takeLine source.data).2).2).2).2 },
        { rec with
            header := rec.header ++ (takeLine source.data).1,
            seq := rec.seq ++ (takeLine (takeLine source.data).2).1,
            qual :=
              rec.qual ++
                (takeLine (takeLine (takeLine (takeLine source.data).2).2).2).1 }⟩ := by
  simp [read_transition_header, readline_file_append, read_transition_seq_eq]

lemma read_transition_err (st : SeqReaderFastqModule) (source : Source)
    (r : Record) (h : source.err = true) :
    read_transition st source r = ⟨false, 0, st, source, r⟩ := by
  simp [read_transition, ferror, h]

lemma read_transition_eof (st : SeqReaderFastqModule) (source : Source)
    (r : Record) (h : source.eofFlag = true) :
    read_transition st source r = ⟨false, 0, st, source, r⟩ := by
  simp [read_transition, ferror, feof, h]

lemma read_transition_exhausted (st : SeqReaderFastqModule) (source : Source)
    (r : Record) (herr : source.err = false) (heof : source.eofFlag = false)
    (hdata : source.data = []) :
    read_transition st source r =
      ⟨false, 0, st, { source with eofFlag := true }, r⟩ := by
  simp [read_transition, ferror, feof, fgetc, herr, heof, hdata]

lemma read_transition_ready (st : SeqReaderFastqModule) (source : Source)
    (r : Record) (herr : source.err = false) (heof : source.eofFlag = false)
    (hdata : source.data ≠ []) :
    read_transition st source r =
      match st.stage with
      | Stage.HEADER => read_transition_header st.tmp source r 0
      | Stage.SEQ => read_transition_seq st.tmp source r 0
      | Stage.SEP => read_transition_sep st.tmp source r 0
      | Stage.QUAL => read_transition_qual st.tmp source r 0 := by
  rcases source with ⟨data, err, eofFlag⟩
  rcases hd : data with _ | ⟨c, cs⟩
  · exact absurd hd (by simpa using hdata)
  · subst hd
    simp only at herr heof
    subst herr; subst heof
    simp [read_transition, ferror, feof, fgetc, ungetc]

lemma read_buffer_entry_header (tmp buffer : List Char) (r : Record)
    (h : buffer ≠ []) :
    read_buffer ⟨Stage.HEADER, tmp⟩ buffer r =
      read_buffer_header tmp buffer ⟨[], [], []⟩ 0 :=
  read_buffer_entry ⟨Stage.HEADER, tmp⟩ buffer r h

lemma read_buffer_entry_seq (tmp buffer : List Char) (r : Record)
    (h : buffer ≠ []) :
    read_buffer ⟨Stage.SEQ, tmp⟩ buffer r =
      read_buffer_seq tmp buffer ⟨[], [], []⟩ 0 :=
  read_buffer_entry ⟨Stage.SEQ, tmp⟩ buffer r h

lemma read_buffer_entry_sep (tmp buffer : List Char) (r : Record)
    (h : buffer ≠ []) :
    read_buffer ⟨Stage.SEP, tmp⟩ buffer r =
      read_buffer_sep tmp buffer ⟨[], [], []⟩ 0 :=
  read_buffer_entry ⟨Stage.SEP, tmp⟩ buffer r h

lemma read_buffer_entry_qual (tmp buffer : List Char) (r : Record)
    (h : buffer ≠ []) :
    read_buffer ⟨Stage.QUAL, tmp⟩ buffer r =
      read_buffer_qual tmp buffer ⟨[], [], []⟩ 0 :=
  read_buffer_entry ⟨Stage.QUAL, tmp⟩ buffer r h

lemma read_transition_entry_header (tmp : List Char) (source : Source)
    (r : Record) (herr : source.err = false) (heof : source.eofFlag = false)
    (hdata : source.data ≠ []) :
    read_transition ⟨Stage.HEADER, tmp⟩ source r =
      read_transition_header tmp source r 0 :=
  read_transition_ready ⟨Stage.HEADER, tmp⟩ source r herr heof hdata

lemma read_transition_entry_seq (tmp : List Char) (source : Source)
    (r : Record) (herr : source.err = false) (heof : source.eofFlag = false)
    (hdata : source.data ≠ []) :
    read_transition ⟨Stage.SEQ, tmp⟩ source r =
      read_transition_seq tmp source r 0 :=
  read_transition_ready ⟨Stage.SEQ, tmp⟩ source r herr heof hdata

lemma read_transition_entry_sep (tmp : List Char) (source : Source)
    (r : Record) (herr : source.err = false) (heof : source.eofFlag = false)
    (hdata : source.data ≠ []) :
    read_transition ⟨Stage.SEP, tmp⟩ source r =
      read_transition_sep tmp source r 0 :=
  read_transition_ready ⟨Stage.SEP, tmp⟩ source r herr heof hdata

lemma read_transition_entry_qual (tmp : List Char) (source : Source)
    (r : Record) (herr : source.err = false) (heof : source.eofFlag = false)
    (hdata : source.data ≠ []) :
    read_transition ⟨Stage.QUAL, tmp⟩ source r =
      read_transition_qual tmp source r 0 :=
  read_transition_ready ⟨Stage.QUAL, tmp⟩ source r herr heof hdata

lemma bool_eq_false_of_ne_true {b : Bool} (h : ¬b = true) : b = false := by
  cases b
  · rfl
  · exact absurd rfl h

/-- C1, counterexample: the claim asserts that a `read_buffer` call
entered with stage SEQ (mid-record resumption) does not clear any of
the record's fields; but the code clears `header`, `seq` and `qual`
unconditionally at entry: entered at stage SEQ with a populated header
and an empty buffer, the call erases the header. -/
theorem read_buffer_midrecord_clear_counterexample :
    (read_buffer ⟨Stage.SEQ, []⟩ [] ⟨"@r1".toList, [], []⟩).record.header = [] ∧
    "@r1".toList ≠ ([] : List Char) :=
  ⟨rfl, by decide⟩

/-- C1 (amended): `read_buffer` clears the record's fields `header`,
`seq`, `qual` at entry regardless of the stage — its result does not
depend on the record passed in — while `read_transition` never clears
any record field at entry: each field of its result extends the field's
previous content, so contents captured by earlier calls are intact when
the transition call's reads begin. -/
theorem read_buffer_clears_read_transition_preserves :
    (∀ (st : SeqReaderFastqModule) (buffer : List Char) (r : Record),
        read_buffer st buffer r = read_buffer st buffer ⟨[], [], []⟩) ∧
    (∀ (st : SeqReaderFastqModule) (source : Source) (r : Record),
        ∃ a b c : List Char,
          (read_transition st source r).record.header = r.header ++ a ∧
          (read_transition st source r).record.seq = r.seq ++ b ∧
          (read_transition st source r).record.qual = r.qual ++ c) := by
  constructor
  · intro st buffer r
    rfl
  · intro st source r
    rcases st with ⟨stage, tmp⟩
    by_cases herr : source.err = true
    · rw [read_transition_err _ source r herr]
      exact ⟨[], [], [], by simp, by simp, by simp⟩
    · replace herr := bool_eq_false_of_ne_true herr
      by_cases heof : source.eofFlag = true
      · rw [read_transition_eof _ source r heof]
        exact ⟨[], [], [], by simp, by simp, by simp⟩
      · replace heof := bool_eq_false_of_ne_true heof
        by_cases hdata : source.data = []
        · rw [read_transition_exhausted _ source r herr heof hdata]
          exact ⟨[], [], [], by simp, by simp, by simp⟩
        · cases stage with
          | HEADER =>
            rw [read_transition_entry_header tmp source r herr heof hdata,
              read_transition_header_eq]
            exact ⟨_, _, _, rfl, rfl, rfl⟩
          | SEQ =>
            rw [read_transition_entry_seq tmp source r herr heof hdata,
              read_transition_seq_eq]
            exact ⟨[], _, _, by simp, rfl, rfl⟩
          | SEP =>
            rw [read_transition_entry_sep tmp source r herr heof hdata,
              read_transition_sep_eq]
            exact ⟨[], [], _, by simp, by simp, rfl⟩
          | QUAL =>
            rw [read_transition_entry_qual tmp source r herr heof hdata,
              read_transition_qual_eq]
            exact ⟨[], [], _, by simp, by simp, rfl⟩

/-- C2, counterexample: the claim asserts that with zero unread bytes
`read_buffer` mutates no record field; but entered at stage SEQ with a
populated sequence field and an empty buffer, the call returns false
with the sequence field erased. -/
theorem read_buffer_idle_mutation_counterexample :
    (read_buffer ⟨Stage.SEQ, []⟩ [] ⟨[], "ACGT".toList, []⟩).ok = false ∧
    (read_buffer ⟨Stage.SEQ, []⟩ [] ⟨[], "ACGT".toList, []⟩).record.seq = [] ∧
    "ACGT".toList ≠ ([] : List Char) :=
  ⟨rfl, rfl, by decide⟩

/-- C2 (amended): with zero unread bytes `read_buffer` reports
incompletion without touching the stage, the scratch accumulator or the
buffer cursor — but it does clear the record's fields at entry; and
after any failed call, calling `read_buffer` again on the resulting
state with the unchanged, still-insufficient buffer leaves the state
and the cursor exactly fixed (in particular the stage never advances)
and the record cleared. -/
theorem read_buffer_incompletion_idempotent :
    (∀ (st : SeqReaderFastqModule) (r : Record),
        read_buffer st [] r = ⟨false, 0, st, [], ⟨[], [], []⟩⟩) ∧
    (∀ (st : SeqReaderFastqModule) (buffer : List Char) (r : Record),
        (read_buffer st buffer r).ok = false →
        read_buffer (read_buffer st buffer r).state
            (read_buffer st buffer r).buffer
            (read_buffer st buffer r).record =
          ⟨false, 0, (read_buffer st buffer r).state,
            (read_buffer st buffer r).buffer, ⟨[], [], []⟩⟩) := by
  constructor
  · intro st r
    exact read_buffer_empty st r
  · intro st buffer r h
    exact read_buffer_noline _ _ _ (read_buffer_fail_noline st buffer r h)

/-- C2 witness: the buffer `"@r1\nACG"` lets the header read succeed
and the sequence read stall; a second call on the stalled state changes
neither the state nor the cursor. -/
theorem read_buffer_incompletion_idempotent_witness :
    read_buffer (read_buffer ⟨Stage.HEADER, []⟩ "@r1\nACG".toList ⟨[], [], []⟩).state
        (read_buffer ⟨Stage.HEADER, []⟩ "@r1\nACG".toList ⟨[], [], []⟩).buffer
        (read_buffer ⟨Stage.HEADER, []⟩ "@r1\nACG".toList ⟨[], [], []⟩).record =
      ⟨false, 0,
        (read_buffer ⟨Stage.HEADER, []⟩ "@r1\nACG".toList ⟨[], [], []⟩).state,
        (read_buffer ⟨Stage.HEADER, []⟩ "@r1\nACG".toList ⟨[], [], []⟩).buffer,
        ⟨[], [], []⟩⟩ :=
  read_buffer_incompletion_idempotent.2 ⟨Stage.HEADER, []⟩ "@r1\nACG".toList
    ⟨[], [], []⟩ (by decide)

/-- C3 (confirmed): a well-formed four-line record fully resident in
the buffer window is read by a single `read_buffer` call entered at
stage HEADER: the call returns true, sets header, seq and qual to the
three informative lines (terminators excluded, the separator line is
discarded) and leaves the stage at HEADER. -/
theorem read_buffer_full_record (l1 l2 l3 l4 rest tmp : List Char)
    (r : Record) (h1 : '\n' ∉ l1) (h2 : '\n' ∉ l2) (h3 : '\n' ∉ l3)
    (h4 : '\n' ∉ l4) :
    read_buffer ⟨Stage.HEADER, tmp⟩
        (l1 ++ '\n' :: (l2 ++ '\n' :: (l3 ++ '\n' :: (l4 ++ '\n' :: rest)))) r =
      ⟨true, 4, ⟨Stage.HEADER, []⟩, rest, ⟨l1, l2, l4⟩⟩ := by
  rw [read_buffer_entry_header tmp _ r (by simp)]
  rw [show read_buffer_header tmp
        (l1 ++ '\n' :: (l2 ++ '\n' :: (l3 ++ '\n' :: (l4 ++ '\n' :: rest))))
        ⟨[], [], []⟩ 0 =
      read_buffer_seq tmp (l2 ++ '\n' :: (l3 ++ '\n' :: (l4 ++ '\n' :: rest)))
        ⟨l1, [], []⟩ 1 from by
    simp [read_buffer_header, readline_buffer_append, splitLine_append l1 _ h1]]
  rw [show read_buffer_seq tmp (l2 ++ '\n' :: (l3 ++ '\n' :: (l4 ++ '\n' :: rest)))
        ⟨l1, [], []⟩ 1 =
      read_buffer_sep tmp (l3 ++ '\n' :: (l4 ++ '\n' :: rest)) ⟨l1, l2, []⟩ 2 from by
    simp [read_buffer_seq, readline_buffer_append, splitLine_append l2 _ h2]]
  rw [show read_buffer_sep tmp (l3 ++ '\n' :: (l4 ++ '\n' :: rest)) ⟨l1, l2, []⟩ 2 =
      read_buffer_qual [] (l4 ++ '\n' :: rest) ⟨l1, l2, []⟩ 3 from by
    simp [read_buffer_sep, readline_buffer_append, splitLine_append l3 _ h3]]
  simp [read_buffer_qual, readline_buffer_append, splitLine_append l4 _ h4]

/-- C3 witness: the concrete buffer `"@r1\nACGT\n+\n!!!!\n"` yields
header `@r1`, sequence `ACGT`, quality `!!!!` in one successful call. -/
theorem read_buffer_full_record_witness :
    read_buffer ⟨Stage.HEADER, []⟩
        ("@r1".toList ++ '\n' :: ("ACGT".toList ++ '\n' :: ("+".toList ++ '\n' ::
          ("!!!!".toList ++ '\n' :: [])))) ⟨[], [], []⟩ =
      ⟨true, 4, ⟨Stage.HEADER, []⟩, [],
        ⟨"@r1".toList, "ACGT".toList, "!!!!".toList⟩⟩ :=
  read_buffer_full_record "@r1".toList "ACGT".toList "+".toList "!!!!".toList
    [] [] ⟨[], [], []⟩ (by decide) (by decide) (by decide) (by decide)

/-- C4 (confirmed): for a well-formed record split after line k
(k = 1, 2, 3) between the buffer and the stream, one `read_buffer` call
(stalling at stage k+1 with fields 1..k populated) followed by one
`read_transition` call (completing the remaining stages from the
stream) produces exactly the record that one `read_file` call produces
on the unsplit input. -/
theorem buffer_transition_matches_read_file
    (l1 l2 l3 l4 tmp : List Char) (st0 : SeqReaderFastqModule)
    (h1 : '\n' ∉ l1) (h2 : '\n' ∉ l2) (h3 : '\n' ∉ l3) (h4 : '\n' ∉ l4) :
    let direct := read_file st0
      ⟨l1 ++ '\n' :: (l2 ++ '\n' :: (l3 ++ '\n' :: (l4 ++ '\n' :: []))),
        false, false⟩ ⟨[], [], []⟩
    let o1 := read_buffer ⟨Stage.HEADER, tmp⟩ (l1 ++ ['\n']) ⟨[], [], []⟩
    let t1 := read_transition o1.state
      ⟨l2 ++ '\n' :: (l3 ++ '\n' :: (l4 ++ '\n' :: [])), false, false⟩ o1.record
    let o2 := read_buffer ⟨Stage.HEADER, tmp⟩
      (l1 ++ '\n' :: (l2 ++ ['\n'])) ⟨[], [], []⟩
    let t2 := read_transition o2.state
      ⟨l3 ++ '\n' :: (l4 ++ '\n' :: []), false, false⟩ o2.record
    let o3 := read_buffer ⟨Stage.HEADER, tmp⟩
      (l1 ++ '\n' :: (l2 ++ '\n' :: (l3 ++ ['\n']))) ⟨[], [], []⟩
    let t3 := read_transition o3.state ⟨l4 ++ '\n' :: [], false, false⟩ o3.record
    direct.ok = true ∧
    (o1.ok = false ∧ o1.state.stage = Stage.SEQ ∧ o1.record = ⟨l1, [], []⟩ ∧
      t1.ok = true ∧ t1.record = direct.record) ∧
    (o2.ok = false ∧ o2.state.stage = Stage.SEP ∧ o2.record = ⟨l1, l2, []⟩ ∧
      t2.ok = true ∧ t2.record = direct.record) ∧
    (o3.ok = false ∧ o3.state.stage = Stage.QUAL ∧ o3.record = ⟨l1, l2, []⟩ ∧
      t3.ok = true ∧ t3.record = direct.record) := by
  have hdirect : read_file st0
      ⟨l1 ++ '\n' :: (l2 ++ '\n' :: (l3 ++ '\n' :: (l4 ++ '\n' :: []))),
        false, false⟩ ⟨[], [], []⟩ =
      ⟨true, { st0 with tmp := l3 }, ⟨[], false, false⟩, ⟨l1, l2, l4⟩⟩ := by
    simp [read_file, file_at_end, readline_file, readline_file_append,
      takeLine_append l1 _ h1, takeLine_append l2 _ h2,
      takeLine_append l3 _ h3, takeLine_append l4 _ h4]
  have ho1 : read_buffer ⟨Stage.HEADER, tmp⟩ (l1 ++ ['\n']) ⟨[], [], []⟩ =
      ⟨false, 1, ⟨Stage.SEQ, tmp⟩, [], ⟨l1, [], []⟩⟩ := by
    rw [read_buffer_entry_header tmp _ _ (by simp)]
    simp [read_buffer_header, read_buffer_seq, readline_buffer_append,
      splitLine_append l1 _ h1, splitLine_nil]
  have ho2 : read_buffer ⟨Stage.HEADER, tmp⟩
      (l1 ++ '\n' :: (l2 ++ ['\n'])) ⟨[], [], []⟩ =
      ⟨false, 2, ⟨Stage.SEP, tmp⟩, [], ⟨l1, l2, []⟩⟩ := by
    rw [read_buffer_entry_header tmp _ _ (by simp)]
    simp [read_buffer_header, read_buffer_seq, read_buffer_sep,
      readline_buffer_append, splitLine_append l1 _ h1,
      splitLine_append l2 _ h2, splitLine_nil]
  have ho3 : read_buffer ⟨Stage.HEADER, tmp⟩
      (l1 ++ '\n' :: (l2 ++ '\n' :: (l3 ++ ['\n']))) ⟨[], [], []⟩ =
      ⟨false, 3, ⟨Stage.QUAL, []⟩, [], ⟨l1, l2, []⟩⟩ := by
    rw [read_buffer_entry_header tmp _ _ (by simp)]
    simp [read_buffer_header, read_buffer_seq, read_buffer_sep,
      read_buffer_qual, readline_buffer_append, splitLine_append l1 _ h1,
      splitLine_append l2 _ h2, splitLine_append l3 _ h3, splitLine_nil]
  have ht1 : read_transition ⟨Stage.SEQ, tmp⟩
      ⟨l2 ++ '\n' :: (l3 ++ '\n' :: (l4 ++ '\n' :: [])), false, false⟩
      ⟨l1, [], []⟩ =
      ⟨true, 3, ⟨Stage.HEADER, []⟩, ⟨[], false, false⟩, ⟨l1, l2, l4⟩⟩ := by
    rw [read_transition_entry_seq tmp _ _ rfl rfl (by simp),
      read_transition_seq_eq]
    simp [takeLine_append l2 _ h2, takeLine_append l3 _ h3,
      takeLine_append l4 _ h4]
  have ht2 : read_transition ⟨Stage.SEP, tmp⟩
      ⟨l3 ++ '\n' :: (l4 ++ '\n' :: []), false, false⟩ ⟨l1, l2, []⟩ =
      ⟨true, 2, ⟨Stage.HEADER, []⟩, ⟨[], false, false⟩, ⟨l1, l2, l4⟩⟩ := by
    rw [read_transition_entry_sep tmp _ _ rfl rfl (by simp),
      read_transition_sep_eq]
    simp [takeLine_append l3 _ h3, takeLine_append l4 _ h4]
  have ht3 : read_transition ⟨Stage.QUAL, []⟩
      ⟨l4 ++ '\n' :: [], false, false⟩ ⟨l1, l2, []⟩ =
      ⟨true, 1, ⟨Stage.HEADER, []⟩, ⟨[], false, false⟩, ⟨l1, l2, l4⟩⟩ := by
    rw [read_transition_entry_qual [] _ _ rfl rfl (by simp),
      read_transition_qual_eq]
    simp [takeLine_append l4 _ h4]
  refine ⟨by rw [hdirect], ⟨?_, ?_, ?_, ?_, ?_⟩, ⟨?_, ?_, ?_, ?_, ?_⟩,
    ⟨?_, ?_, ?_, ?_, ?_⟩⟩
  · rw [ho1]
  · rw [ho1]
  · rw [ho1]
  · rw [ho1, ht1]
  · rw [ho1, ht1, hdirect]
  · rw [ho2]
  · rw [ho2]
  · rw [ho2]
  · rw [ho2, ht2]
  · rw [ho2, ht2, hdirect]
  · rw [ho3]
  · rw [ho3]
  · rw [ho3]
  · rw [ho3, ht3]
  · rw [ho3, ht3, hdirect]

/-- C4 witness: the record `@r1 / ACGT / + / !!!!` split after line 1
is recovered identically by the buffered-then-transition composition
and by the direct strategy. -/
theorem buffer_transition_matches_read_file_witness :
    let direct := read_file ⟨Stage.HEADER, []⟩
      ⟨"@r1".toList ++ '\n' :: ("ACGT".toList ++ '\n' :: ("+".toList ++ '\n' ::
        ("!!!!".toList ++ '\n' :: []))), false, false⟩ ⟨[], [], []⟩
    let o1 := read_buffer ⟨Stage.HEADER, []⟩ ("@r1".toList ++ ['\n']) ⟨[], [], []⟩
    let t1 := read_transition o1.state
      ⟨"ACGT".toList ++ '\n' :: ("+".toList ++ '\n' ::
        ("!!!!".toList ++ '\n' :: [])), false, false⟩ o1.record
    direct.ok = true ∧ o1.ok = false ∧ o1.state.stage = Stage.SEQ ∧
      o1.record = ⟨"@r1".toList, [], []⟩ ∧ t1.ok = true ∧
      t1.record = direct.record := by
  have h := buffer_transition_matches_read_file "@r1".toList "ACGT".toList
    "+".toList "!!!!".toList [] ⟨Stage.HEADER, []⟩
    (by decide) (by decide) (by decide) (by decide)
  exact ⟨h.1, h.2.1.1, h.2.1.2.1, h.2.1.2.2.1, h.2.1.2.2.2.1, h.2.1.2.2.2.2⟩

/-- C5 (confirmed): `read_transition` reads lines only when the stream
has neither error nor end-of-file set and a one-unit peek finds data;
the peeked unit is pushed back before any stage read, so the stage
reads start at the stream's original position and consume exactly the
remaining stages' lines; on a truly exhausted stream it returns false
(the clean no-more-records signal) without reading a line or mutating
the record or the stage. -/
theorem read_transition_gatekeeping (st : SeqReaderFastqModule)
    (source : Source) (r : Record) :
    ((read_transition st source r).ok = true ↔
      (source.err = false ∧ source.eofFlag = false ∧ source.data ≠ [])) ∧
    (source.err = false → source.eofFlag = false → source.data = [] →
      read_transition st source r =
        ⟨false, 0, st, { source with eofFlag := true }, r⟩) ∧
    (source.err = false → source.eofFlag = false → source.data ≠ [] →
      (read_transition st source r).ok = true ∧
      (read_transition st source r).source.data =
        dropLines (4 - st.stage.idx) source.data) := by
  rcases st with ⟨stage, tmp⟩
  by_cases herr : source.err = true
  · rw [read_transition_err _ source r herr]
    exact ⟨by simp [herr], fun hf => absurd herr (by simp [hf]),
      fun hf => absurd herr (by simp [hf])⟩
  · replace herr := bool_eq_false_of_ne_true herr
    by_cases heof : source.eofFlag = true
    · rw [read_transition_eof _ source r heof]
      exact ⟨by simp [heof], fun _ hf => absurd heof (by simp [hf]),
        fun _ hf => absurd heof (by simp [hf])⟩
    · replace heof := bool_eq_false_of_ne_true heof
      by_cases hdata : source.data = []
      · rw [read_transition_exhausted _ source r herr heof hdata]
        exact ⟨by simp [hdata], fun _ _ _ => rfl,
          fun _ _ hne => absurd hdata hne⟩
      · cases stage with
        | HEADER =>
          rw [read_transition_entry_header tmp source r herr heof hdata,
            read_transition_header_eq]
          exact ⟨by simp [herr, heof, hdata], fun _ _ hf => absurd hf hdata,
            fun _ _ _ => ⟨rfl, rfl⟩⟩
        | SEQ =>
          rw [read_transition_entry_seq tmp source r herr heof hdata,
            read_transition_seq_eq]
          exact ⟨by simp [herr, heof, hdata], fun _ _ hf => absurd hf hdata,
            fun _ _ _ => ⟨rfl, rfl⟩⟩
        | SEP =>
          rw [read_transition_entry_sep tmp source r herr heof hdata,
            read_transition_sep_eq]
          exact ⟨by simp [herr, heof, hdata], fun _ _ hf => absurd hf hdata,
            fun _ _ _ => ⟨rfl, rfl⟩⟩
        | QUAL =>
          rw [read_transition_entry_qual tmp source r herr heof hdata,
            read_transition_qual_eq]
          exact ⟨by simp [herr, heof, hdata], fun _ _ hf => absurd hf hdata,
            fun _ _ _ => ⟨rfl, rfl⟩⟩

/-- C5 witness: a stream at true end of input with stage HEADER makes
`read_transition` return the clean no-more-records signal, with the
record and stage untouched (only the stream's end-of-file indicator is
raised by the probe). -/
theorem read_transition_gatekeeping_witness :
    read_transition ⟨Stage.HEADER, []⟩ ⟨[], false, false⟩ ⟨[], [], []⟩ =
      ⟨false, 0, ⟨Stage.HEADER, []⟩, ⟨[], false, true⟩, ⟨[], [], []⟩⟩ :=
  (read_transition_gatekeeping ⟨Stage.HEADER, []⟩ ⟨[], false, false⟩
    ⟨[], [], []⟩).2.1 rfl rfl rfl

lemma read_buffer_qual_ok_tmp (tmp buf : List Char) (rec : Record) (n : Nat)
    (h : (read_buffer_qual tmp buf rec n).ok = true) :
    (read_buffer_qual tmp buf rec n).state.tmp = tmp := by
  rcases read_buffer_qual_cases tmp buf rec n with ⟨_, he⟩ | ⟨l, r', _, he⟩
  · rw [he] at h
    simp at h
  · rw [he]

lemma read_buffer_sep_ok_tmp (tmp buf : List Char) (rec : Record) (n : Nat)
    (h : (read_buffer_sep tmp buf rec n).ok = true) :
    (read_buffer_sep tmp buf rec n).state.tmp = [] := by
  rcases read_buffer_sep_cases tmp buf rec n with ⟨_, he⟩ | ⟨l, r', _, he⟩
  · rw [he] at h
    simp at h
  · rw [he] at h ⊢
    exact read_buffer_qual_ok_tmp [] r' rec (n + 1) h

lemma read_buffer_seq_ok_tmp (tmp buf : List Char) (rec : Record) (n : Nat)
    (h : (read_buffer_seq tmp buf rec n).ok = true) :
    (read_buffer_seq tmp buf rec n).state.tmp = [] := by
  rcases read_buffer_seq_cases tmp buf rec n with ⟨_, he⟩ | ⟨l, r', _, he⟩
  · rw [he] at h
    simp at h
  · rw [he] at h ⊢
    exact read_buffer_sep_ok_tmp tmp r' _ (n + 1) h

lemma read_buffer_header_ok_tmp (tmp buf : List Char) (rec : Record) (n : Nat)
    (h : (read_buffer_header tmp buf rec n).ok = true) :
    (read_buffer_header tmp buf rec n).state.tmp = [] := by
  rcases read_buffer_header_cases tmp buf rec n with ⟨_, he⟩ | ⟨l, r', _, he⟩
  · rw [he] at h
    simp at h
  · rw [he] at h ⊢
    exact read_buffer_seq_ok_tmp tmp r' _ (n + 1) h

/-- C6, counterexample: the claim asserts that the scratch separator
accumulator is empty after any successful strategy call, including
`read_file`; but a successful `read_file` call leaves the separator
line's content in `tmp`. -/
theorem read_file_scratch_counterexample :
    (read_file ⟨Stage.HEADER, []⟩ ⟨"@r2\nTTTT\n+\n####\n".toList, false, false⟩
      ⟨[], [], []⟩).ok = true ∧
    (read_file ⟨Stage.HEADER, []⟩ ⟨"@r2\nTTTT\n+\n####\n".toList, false, false⟩
      ⟨[], [], []⟩).state.tmp ≠ [] := by
  exact ⟨rfl, by decide⟩

/-- C6 (amended): the scratch separator accumulator is empty after any
successful `read_buffer` or `read_transition` call — the two strategies
that complete the Quality stage — provided a call entered at stage QUAL
starts with the accumulator already empty (which the stage discipline
guarantees, since only a successful separator read sets stage QUAL and
it clears the accumulator at once); `read_file` is excluded: it leaves
the separator line's content in the accumulator. -/
theorem scratch_empty_after_success (st : SeqReaderFastqModule)
    (buffer : List Char) (source : Source) (r1 r2 : Record)
    (hq : st.stage = Stage.QUAL → st.tmp = []) :
    ((read_buffer st buffer r1).ok = true →
      (read_buffer st buffer r1).state.tmp = []) ∧
    ((read_transition st source r2).ok = true →
      (read_transition st source r2).state.tmp = []) := by
  rcases st with ⟨stage, tmp⟩
  constructor
  · intro h
    rcases buffer with _ | ⟨c, cs⟩
    · rw [read_buffer_empty] at h
      simp at h
    · rw [read_buffer_entry _ (c :: cs) r1 (by simp)] at h ⊢
      cases stage with
      | HEADER => exact read_buffer_header_ok_tmp tmp (c :: cs) _ 0 h
      | SEQ => exact read_buffer_seq_ok_tmp tmp (c :: cs) _ 0 h
      | SEP => exact read_buffer_sep_ok_tmp tmp (c :: cs) _ 0 h
      | QUAL =>
        rw [read_buffer_qual_ok_tmp tmp (c :: cs) _ 0 h]
        exact hq rfl
  · intro h
    by_cases herr : source.err = true
    · rw [read_transition_err _ source r2 herr] at h
      simp at h
    · replace herr := bool_eq_false_of_ne_true herr
      by_cases heof : source.eofFlag = true
      · rw [read_transition_eof _ source r2 heof] at h
        simp at h
      · replace heof := bool_eq_false_of_ne_true heof
        by_cases hdata : source.data = []
        · rw [read_transition_exhausted _ source r2 herr heof hdata] at h
          simp at h
        · cases stage with
          | HEADER =>
            rw [read_transition_entry_header tmp source r2 herr heof hdata,
              read_transition_header_eq]
          | SEQ =>
            rw [read_transition_entry_seq tmp source r2 herr heof hdata,
              read_transition_seq_eq]
          | SEP =>
            rw [read_transition_entry_sep tmp source r2 herr heof hdata,
              read_transition_sep_eq]
          | QUAL =>
            rw [read_transition_entry_qual tmp source r2 herr heof hdata,
              read_transition_qual_eq]
            exact hq rfl

/-- C6 witness: a successful buffered read of a whole record, entered
with a dirty scratch accumulator at stage HEADER, ends with the
accumulator empty. -/
theorem scratch_empty_after_success_witness :
    (read_buffer ⟨Stage.HEADER, ['+']⟩ "@r1\nACGT\n+\n!!!!\n".toList
      ⟨[], [], []⟩).state.tmp = [] :=
  (scratch_empty_after_success ⟨Stage.HEADER, ['+']⟩
    "@r1\nACGT\n+\n!!!!\n".toList ⟨[], false, false⟩ ⟨[], [], []⟩ ⟨[], [], []⟩
    (by decide)).1 (by decide)

lemma read_buffer_qual_shape (tmp buf : List Char) (rec : Record) (n : Nat) :
    ((read_buffer_qual tmp buf rec n).ok = false ∧
      (read_buffer_qual tmp buf rec n).lines = n ∧
      (read_buffer_qual tmp buf rec n).state.stage = Stage.QUAL) ∨
    ((read_buffer_qual tmp buf rec n).ok = true ∧
      (read_buffer_qual tmp buf rec n).lines = n + 1 ∧
      (read_buffer_qual tmp buf rec n).state.stage = Stage.HEADER) := by
  rcases read_buffer_qual_cases tmp buf rec n with ⟨_, he⟩ | ⟨l, r', _, he⟩
  · left
    rw [he]
    exact ⟨rfl, rfl, rfl⟩
  · right
    rw [he]
    exact ⟨rfl, rfl, rfl⟩

lemma read_buffer_sep_shape (tmp buf : List Char) (rec : Record) (n : Nat) :
    ((read_buffer_sep tmp buf rec n).ok = false ∧
      (read_buffer_sep tmp buf rec n).lines = n ∧
      (read_buffer_sep tmp buf rec n).state.stage = Stage.SEP) ∨
    ((read_buffer_sep tmp buf rec n).ok = false ∧
      (read_buffer_sep tmp buf rec n).lines = n + 1 ∧
      (read_buffer_sep tmp buf rec n).state.stage = Stage.QUAL) ∨
    ((read_buffer_sep tmp buf rec n).ok = true ∧
      (read_buffer_sep tmp buf rec n).lines = n + 2 ∧
      (read_buffer_sep tmp buf rec n).state.stage = Stage.HEADER) := by
  rcases read_buffer_sep_cases tmp buf rec n with ⟨_, he⟩ | ⟨l, r', _, he⟩
  · left
    rw [he]
    exact ⟨rfl, rfl, rfl⟩
  · rw [he]
    rcases read_buffer_qual_shape [] r' rec (n + 1) with h | h
    · exact Or.inr (Or.inl h)
    · exact Or.inr (Or.inr h)

lemma read_buffer_seq_shape (tmp buf : List Char) (rec : Record) (n : Nat) :
    ((read_buffer_seq tmp buf rec n).ok = false ∧
      (read_buffer_seq tmp buf rec n).lines = n ∧
      (read_buffer_seq tmp buf rec n).state.stage = Stage.SEQ) ∨
    ((read_buffer_seq tmp buf rec n).ok = false ∧
      (read_buffer_seq tmp buf rec n).lines = n + 1 ∧
      (read_buffer_seq tmp buf rec n).state.stage = Stage.SEP) ∨
    ((read_buffer_seq tmp buf rec n).ok = false ∧
      (read_buffer_seq tmp buf rec n).lines = n + 2 ∧
      (read_buffer_seq tmp buf rec n).state.stage = Stage.QUAL) ∨
    ((read_buffer_seq tmp buf rec n).ok = true ∧
      (read_buffer_seq tmp buf rec n).lines = n + 3 ∧
      (read_buffer_seq tmp buf rec n).state.stage = Stage.HEADER) := by
  rcases read_buffer_seq_cases tmp buf rec n with ⟨_, he⟩ | ⟨l, r', _, he⟩
  · left
    rw [he]
    exact ⟨rfl, rfl, rfl⟩
  · rw [he]
    rcases read_buffer_sep_shape tmp r' { rec with seq := rec.seq ++ l }
        (n + 1) with h | h | h
    · exact Or.inr (Or.inl h)
    · exact Or.inr (Or.inr (Or.inl h))
    · exact Or.inr (Or.inr (Or.inr h))

lemma read_buffer_header_shape (tmp buf : List Char) (rec : Record) (n : Nat) :
    ((read_buffer_header tmp buf rec n).ok = false ∧
      (read_buffer_header tmp buf rec n).lines = n ∧
      (read_buffer_header tmp buf rec n).state.stage = Stage.HEADER) ∨
    ((read_buffer_header tmp buf rec n).ok = false ∧
      (read_buffer_header tmp buf rec n).lines = n + 1 ∧
      (read_buffer_header tmp buf rec n).state.stage = Stage.SEQ) ∨
    ((read_buffer_header tmp buf rec n).ok = false ∧
      (read_buffer_header tmp buf rec n).lines = n + 2 ∧
      (read_buffer_header tmp buf rec n).state.stage = Stage.SEP) ∨
    ((read_buffer_header tmp buf rec n).ok = false ∧
      (read_buffer_header tmp buf rec n).lines = n + 3 ∧
      (read_buffer_header tmp buf rec n).state.stage = Stage.QUAL) ∨
    ((read_buffer_header tmp buf rec n).ok = true ∧
      (read_buffer_header tmp buf rec n).lines = n + 4 ∧
      (read_buffer_header tmp buf rec n).state.stage = Stage.HEADER) := by
  rcases read_buffer_header_cases tmp buf rec n with ⟨_, he⟩ | ⟨l, r', _, he⟩
  · left
    rw [he]
    exact ⟨rfl, rfl, rfl⟩
  · rw [he]
    rcases read_buffer_seq_shape tmp r' { rec with header := rec.header ++ l }
        (n + 1) with h | h | h | h
    · exact Or.inr (Or.inl h)
    · exact Or.inr (Or.inr (Or.inl h))
    · exact Or.inr (Or.inr (Or.inr (Or.inl h)))
    · exact Or.inr (Or.inr (Or.inr (Or.inr h)))

/-- C7 (confirmed): the stage cursor moves strictly in the cyclic order
HEADER, SEQ, SEP, QUAL, one step per successfully read line (counted by
the `lines` instrumentation), wrapping back to HEADER exactly when the
quality line of the cycle has been read, and that wrap is the sole
point at which `read_buffer` or `read_transition` returns true. -/
theorem stage_cyclic_advance :
    (∀ (st : SeqReaderFastqModule) (buffer : List Char) (r : Record),
      st.stage.idx + (read_buffer st buffer r).lines ≤ 4 ∧
      (read_buffer st buffer r).state.stage =
        Stage.ofIdx ((st.stage.idx + (read_buffer st buffer r).lines) % 4) ∧
      ((read_buffer st buffer r).ok = true ↔
        st.stage.idx + (read_buffer st buffer r).lines = 4)) ∧
    (∀ (st : SeqReaderFastqModule) (source : Source) (r : Record),
      st.stage.idx + (read_transition st source r).lines ≤ 4 ∧
      (read_transition st source r).state.stage =
        Stage.ofIdx ((st.stage.idx + (read_transition st source r).lines) % 4) ∧
      ((read_transition st source r).ok = true ↔
        st.stage.idx + (read_transition st source r).lines = 4) ∧
      ((read_transition st source r).ok = false →
        (read_transition st source r).lines = 0 ∧
        (read_transition st source r).state = st)) := by
  constructor
  · intro st buffer r
    rcases st with ⟨stage, tmp⟩
    rcases buffer with _ | ⟨c, cs⟩
    · rw [read_buffer_empty]
      cases stage <;> exact ⟨by simp [Stage.idx], by first | rfl | simp [Stage.idx, Stage.ofIdx] | (simp only [Stage.idx]; decide) | (simp [Stage.idx]; decide), by simp [Stage.idx]⟩
    · rw [read_buffer_entry _ (c :: cs) r (by simp)]
      cases stage with
      | HEADER =>
        rcases read_buffer_header_shape tmp (c :: cs) ⟨[], [], []⟩ 0 with
          ⟨ho, hl, hs⟩ | ⟨ho, hl, hs⟩ | ⟨ho, hl, hs⟩ | ⟨ho, hl, hs⟩ | ⟨ho, hl, hs⟩ <;>
          rw [hl, hs, ho] <;>
          exact ⟨by simp [Stage.idx], by first | rfl | simp [Stage.idx, Stage.ofIdx] | (simp only [Stage.idx]; decide) | (simp [Stage.idx]; decide), by simp [Stage.idx]⟩
      | SEQ =>
        rcases read_buffer_seq_shape tmp (c :: cs) ⟨[], [], []⟩ 0 with
          ⟨ho, hl, hs⟩ | ⟨ho, hl, hs⟩ | ⟨ho, hl, hs⟩ | ⟨ho, hl, hs⟩ <;>
          rw [hl, hs, ho] <;>
          exact ⟨by simp [Stage.idx], by first | rfl | simp [Stage.idx, Stage.ofIdx] | (simp only [Stage.idx]; decide) | (simp [Stage.idx]; decide), by simp [Stage.idx]⟩
      | SEP =>
        rcases read_buffer_sep_shape tmp (c :: cs) ⟨[], [], []⟩ 0 with
          ⟨ho, hl, hs⟩ | ⟨ho, hl, hs⟩ | ⟨ho, hl, hs⟩ <;>
          rw [hl, hs, ho] <;>
          exact ⟨by simp [Stage.idx], by first | rfl | simp [Stage.idx, Stage.ofIdx] | (simp only [Stage.idx]; decide) | (simp [Stage.idx]; decide), by simp [Stage.idx]⟩
      | QUAL =>
        rcases read_buffer_qual_shape tmp (c :: cs) ⟨[], [], []⟩ 0 with
          ⟨ho, hl, hs⟩ | ⟨ho, hl, hs⟩ <;>
          rw [hl, hs, ho] <;>
          exact ⟨by simp [Stage.idx], by first | rfl | simp [Stage.idx, Stage.ofIdx] | (simp only [Stage.idx]; decide) | (simp [Stage.idx]; decide), by simp [Stage.idx]⟩
  · intro st source r
    rcases st with ⟨stage, tmp⟩
    by_cases herr : source.err = true
    · rw [read_transition_err _ source r herr]
      cases stage <;>
        exact ⟨by simp [Stage.idx], by first | rfl | simp [Stage.idx, Stage.ofIdx] | (simp only [Stage.idx]; decide) | (simp [Stage.idx]; decide), by simp [Stage.idx],
          fun _ => ⟨rfl, rfl⟩⟩
    · replace herr := bool_eq_false_of_ne_true herr
      by_cases heof : source.eofFlag = true
      · rw [read_transition_eof _ source r heof]
        cases stage <;>
          exact ⟨by simp [Stage.idx], by first | rfl | simp [Stage.idx, Stage.ofIdx] | (simp only [Stage.idx]; decide) | (simp [Stage.idx]; decide), by simp [Stage.idx],
            fun _ => ⟨rfl, rfl⟩⟩
      · replace heof := bool_eq_false_of_ne_true heof
        by_cases hdata : source.data = []
        · rw [read_transition_exhausted _ source r herr heof hdata]
          cases stage <;>
            exact ⟨by simp [Stage.idx], by first | rfl | simp [Stage.idx, Stage.ofIdx] | (simp only [Stage.idx]; decide) | (simp [Stage.idx]; decide), by simp [Stage.idx],
              fun _ => ⟨rfl, rfl⟩⟩
        · cases stage with
          | HEADER =>
            rw [read_transition_entry_header tmp source r herr heof hdata,
              read_transition_header_eq]
            exact ⟨by simp [Stage.idx], by first | rfl | simp [Stage.idx, Stage.ofIdx] | (simp only [Stage.idx]; decide) | (simp [Stage.idx]; decide), by simp [Stage.idx],
              fun h => by simp at h⟩
          | SEQ =>
            rw [read_transition_entry_seq tmp source r herr heof hdata,
              read_transition_seq_eq]
            exact ⟨by simp [Stage.idx], by first | rfl | simp [Stage.idx, Stage.ofIdx] | (simp only [Stage.idx]; decide) | (simp [Stage.idx]; decide), by simp [Stage.idx],
              fun h => by simp at h⟩
          | SEP =>
            rw [read_transition_entry_sep tmp source r herr heof hdata,
              read_transition_sep_eq]
            exact ⟨by simp [Stage.idx], by first | rfl | simp [Stage.idx, Stage.ofIdx] | (simp only [Stage.idx]; decide) | (simp [Stage.idx]; decide), by simp [Stage.idx],
              fun h => by simp at h⟩
          | QUAL =>
            rw [read_transition_entry_qual tmp source r herr heof hdata,
              read_transition_qual_eq]
            exact ⟨by simp [Stage.idx], by first | rfl | simp [Stage.idx, Stage.ofIdx] | (simp only [Stage.idx]; decide) | (simp [Stage.idx]; decide), by simp [Stage.idx],
              fun h => by simp at h⟩

/-- C7 witness: reading the full record `@r1 / ACGT / + / !!!!` from
the buffer advances the stage by four steps (a full cycle), and a
transition call on an exhausted stream takes zero steps and leaves the
state untouched. -/
theorem stage_cyclic_advance_witness :
    (⟨Stage.HEADER, []⟩ : SeqReaderFastqModule).stage.idx +
        (read_buffer ⟨Stage.HEADER, []⟩ "@r1\nACGT\n+\n!!!!\n".toList
          ⟨[], [], []⟩).lines = 4 ∧
    (read_transition ⟨Stage.SEQ, []⟩ ⟨[], false, true⟩ ⟨[], [], []⟩).lines = 0 ∧
    (read_transition ⟨Stage.SEQ, []⟩ ⟨[], false, true⟩ ⟨[], [], []⟩).state =
      ⟨Stage.SEQ, []⟩ :=
  ⟨(stage_cyclic_advance.1 ⟨Stage.HEADER, []⟩ "@r1\nACGT\n+\n!!!!\n".toList
      ⟨[], [], []⟩).2.2.mp (by decide),
    ((stage_cyclic_advance.2 ⟨Stage.SEQ, []⟩ ⟨[], false, true⟩
      ⟨[], [], []⟩).2.2.2 (by decide)).1,
    ((stage_cyclic_advance.2 ⟨Stage.SEQ, []⟩ ⟨[], false, true⟩
      ⟨[], [], []⟩).2.2.2 (by decide)).2⟩

/-- C8 (confirmed): if the raw stage value lies outside the four
recognized stages, `read_buffer` and `read_transition` reach the
defensive `default` branch and abort the whole process (embedded as
`none`) whenever the dispatch on the stage is reached; for every call
starting from a valid stage value (below 4) the abort branch is
unreachable, as the exhaustively matched four-value enumeration
guarantees. -/
theorem invalid_stage_aborts (v : Nat) (tmp buffer : List Char)
    (source : Source) (r : Record) :
    (v < 4 → read_buffer_stageval v tmp buffer r ≠ none ∧
      read_transition_stageval v tmp source r ≠ none) ∧
    (4 ≤ v → buffer ≠ [] → read_buffer_stageval v tmp buffer r = none) ∧
    (4 ≤ v → source.err = false → source.eofFlag = false →
      source.data ≠ [] → read_transition_stageval v tmp source r = none) := by
  have htrans : ∀ w : Nat,
      read_transition_stageval w tmp source r = none →
      (source.err = false ∧ source.eofFlag = false ∧ source.data ≠ []) := by
    intro w hw
    by_cases herr : source.err = true
    · rw [read_transition_stageval, ferror, herr] at hw
      simp at hw
    · replace herr := bool_eq_false_of_ne_true herr
      by_cases heof : source.eofFlag = true
      · rw [read_transition_stageval, ferror, feof, herr, heof] at hw
        simp at hw
      · replace heof := bool_eq_false_of_ne_true heof
        refine ⟨herr, heof, ?_⟩
        intro hdata
        rw [read_transition_stageval, ferror, feof, herr, heof] at hw
        simp [fgetc, hdata] at hw
  constructor
  · intro hv
    constructor
    · rcases buffer with _ | ⟨c, cs⟩
      · simp [read_buffer_stageval]
      · interval_cases v <;> simp [read_buffer_stageval]
    · intro hw
      obtain ⟨herr, heof, hdata⟩ := htrans v hw
      rcases hd : source.data with _ | ⟨c, cs⟩
      · exact hdata hd
      · rw [read_transition_stageval, ferror, feof, herr, heof] at hw
        simp only [Bool.and_self, if_true, fgetc, hd] at hw
        interval_cases v <;> simp at hw
  · constructor
    · intro hv hb
      obtain ⟨w, rfl⟩ : ∃ w, v = w + 4 := ⟨v - 4, by omega⟩
      rcases buffer with _ | ⟨c, cs⟩
      · exact absurd rfl hb
      · simp [read_buffer_stageval]
    · intro hv herr heof hdata
      obtain ⟨w, rfl⟩ : ∃ w, v = w + 4 := ⟨v - 4, by omega⟩
      rcases hd : source.data with _ | ⟨c, cs⟩
      · exact absurd hd hdata
      · rw [read_transition_stageval, ferror, feof, herr, heof]
        simp [fgetc, hd]

/-- C8 witness: a valid stage value (2) never reaches the abort branch,
while a corrupted stage value (7) aborts both the buffered and the
transition dispatch on a nonempty input. -/
theorem invalid_stage_aborts_witness :
    (read_buffer_stageval 2 [] ['A'] ⟨[], [], []⟩ ≠ none ∧
      read_transition_stageval 2 [] ⟨['A'], false, false⟩ ⟨[], [], []⟩ ≠ none) ∧
    read_buffer_stageval 7 [] ['A'] ⟨[], [], []⟩ = none ∧
    read_transition_stageval 7 [] ⟨['A'], false, false⟩ ⟨[], [], []⟩ = none :=
  ⟨(invalid_stage_aborts 2 [] ['A'] ⟨['A'], false, false⟩ ⟨[], [], []⟩).1
      (by decide),
    (invalid_stage_aborts 7 [] ['A'] ⟨['A'], false, false⟩ ⟨[], [], []⟩).2.1
      (by decide) (by decide),
    (invalid_stage_aborts 7 [] ['A'] ⟨['A'], false, false⟩ ⟨[], [], []⟩).2.2
      (by decide) rfl rfl (by decide)⟩

/-- C9 (confirmed): `read_file` fails (no more records) exactly when
the stream is already at its end at entry, leaving everything
untouched; otherwise it performs four direct line reads in the fixed
order header, sequence, separator (discarded into `tmp`), quality, and
returns success. -/
theorem read_file_direct (st : SeqReaderFastqModule) (source : Source)
    (r : Record) :
    ((read_file st source r).ok = false ↔ source.data = []) ∧
    (source.data = [] → read_file st source r = ⟨false, st, source, r⟩) ∧
    (source.data ≠ [] →
      read_file st source r =
        ⟨true,
          { st with tmp := (takeLine (takeLine (takeLine source.data).2).2).1 },
          { source with data :=
              (takeLine (takeLine (takeLine (takeLine source.data).2).2).2).2 },
          ⟨(takeLine source.data).1, (takeLine (takeLine source.data).2).1,
            (takeLine (takeLine (takeLine (takeLine source.data).2).2).2).1⟩⟩) := by
  rcases source with ⟨data, err, eofFlag⟩
  rcases data with _ | ⟨c, cs⟩
  · exact ⟨by simp [read_file, file_at_end],
      fun _ => by simp [read_file, file_at_end],
      fun hne => absurd rfl hne⟩
  · refine ⟨by simp [read_file, file_at_end],
      fun he => absurd he (List.cons_ne_nil c cs), fun _ => ?_⟩
    simp [read_file, file_at_end, readline_file, readline_file_append]

/-- C9 witness: against the stream `"@r2\nTTTT\n+\n####\n"` one
`read_file` call returns success with header `@r2`, sequence `TTTT`,
quality `####`, and the separator line `+` discarded into `tmp`. -/
theorem read_file_direct_witness :
    read_file ⟨Stage.HEADER, []⟩ ⟨"@r2\nTTTT\n+\n####\n".toList, false, false⟩
        ⟨[], [], []⟩ =
      ⟨true, ⟨Stage.HEADER, "+".toList⟩, ⟨[], false, false⟩,
        ⟨"@r2".toList, "TTTT".toList, "####".toList⟩⟩ := by
  rw [(read_file_direct ⟨Stage.HEADER, []⟩
    ⟨"@r2\nTTTT\n+\n####\n".toList, false, false⟩ ⟨[], [], []⟩).2.2 (by decide)]
  decide

/-- C10 (confirmed): `read_file` neither reads nor writes the stage
cursor: the stage after the call equals the stage before it, and every
other component of the result is unchanged when only the entry stage
differs, so direct calls cannot disturb the stage machine of the other
two strategies. -/
theorem read_file_stage_framed (s1 s2 : Stage) (t : List Char)
    (source : Source) (r : Record) :
    (read_file ⟨s1, t⟩ source r).state.stage = s1 ∧
    (read_file ⟨s1, t⟩ source r).ok = (read_file ⟨s2, t⟩ source r).ok ∧
    (read_file ⟨s1, t⟩ source r).record = (read_file ⟨s2, t⟩ source r).record ∧
    (read_file ⟨s1, t⟩ source r).source = (read_file ⟨s2, t⟩ source r).source ∧
    (read_file ⟨s1, t⟩ source r).state.tmp =
      (read_file ⟨s2, t⟩ source r).state.tmp := by
  by_cases hend : file_at_end source = true
  · simp [read_file, hend]
  · replace hend := bool_eq_false_of_ne_true hend
    simp [read_file, hend]

end Btllib
